import Mathlib

/-!
Verification of the gigsama backend (src/index.js): the conversation
policy engine behind POST /api/chat and the project store gateway behind
GET/POST/PUT /api/projects.  Handlers are embedded as pure functions of
their request data and of the ambient configuration (API key presence,
Gemini client, Mongo connection), with the external model call and the
store passed in explicitly.
-/

namespace Gigsama

/-- One chat turn from the request body `{ messages: [ {role, content}, ... ] }`. -/
structure ChatTurn where
  role : String
  content : String
deriving Repr, DecidableEq

/-- `const userMessages = messages.filter((m) => m.role === "user")` (src/index.js:116). -/
def userMessages (messages : List ChatTurn) : List ChatTurn :=
  messages.filter (fun m => m.role == "user")

/-- `const shouldGenerateSchema = userMessages.length >= 3` (src/index.js:117). -/
def shouldGenerateSchema (messages : List ChatTurn) : Bool :=
  decide (3 ≤ (userMessages messages).length)

/-- The policy engine's decision: keep clarifying or generate the schema. -/
inductive Mode where
  | CLARIFY
  | GENERATE
deriving Repr, DecidableEq

/-- The mode chosen by the chat handler: GENERATE when `shouldGenerateSchema`,
CLARIFY otherwise (src/index.js:117,129). -/
def mode (messages : List ChatTurn) : Mode :=
  if shouldGenerateSchema messages then .GENERATE else .CLARIFY

/-- The default system prompt (src/index.js:119-127), used when
`shouldGenerateSchema` is false. -/
def clarifyPrompt : String :=
  "You are a helpful database design assistant. Help the user design their MongoDB database schema by asking relevant questions about their project requirements.\nFocus on understanding:\n- The purpose of the database\n- The main collections needed\n- The document structure for each collection\n- Relationships between collections\n- Any specific indexes or constraints needed\n\nAsk one question at a time and wait for the user\x27s response before proceeding to the next question."

/-- The schema-generation system prompt (src/index.js:130-139), used when
`shouldGenerateSchema` is true. -/
def generatePrompt : String :=
  "You are a helpful MongoDB database design assistant. Based on the conversation so far, generate a complete MongoDB schema.\n\nGenerate a MongoDB schema using JSON format showing the structure of documents and collections. Include:\n1. Collection definitions\n2. Sample documents with proper field types\n3. Suggested indexes\n4. Embedding vs referencing recommendations for relationships\n\nExplain your design decisions based on MongoDB best practices and the requirements.\nFormat the schema in a code block using triple backticks with json as the language."

/-- `let systemPrompt = ...; if (shouldGenerateSchema) { systemPrompt = ... }`
(src/index.js:119-140). -/
def systemPrompt (messages : List ChatTurn) : String :=
  if shouldGenerateSchema messages then generatePrompt else clarifyPrompt

/-- `const combinedMessages = [{ role: "system", content: systemPrompt }, ...messages]`
(src/index.js:146-149). -/
def combinedMessages (messages : List ChatTurn) : List ChatTurn :=
  ⟨"system", systemPrompt messages⟩ :: messages

/-- `combinedMessages.map((msg) => msg.role + ": " + msg.content).join("\n")`
(src/index.js:152-154): the flattened prompt sent to the model. -/
def prompt (messages : List ChatTurn) : String :=
  String.intercalate "\n" ((combinedMessages messages).map (fun msg => msg.role ++ ": " ++ msg.content))

/-- Split a character list at every newline; the pieces do not contain the
newline character.  Text with `n` newlines yields `n + 1` lines, so
`splitNl [] = [[]]`. -/
def splitNl : List Char → List (List Char)
  | [] => [[]]
  | c :: cs =>
    if c = '\n' then [] :: splitNl cs
    else
      match splitNl cs with
      | [] => [[c]]
      | l :: ls => (c :: l) :: ls

/-- Re-join lines by putting back the newline each one lost to the split:
`joinNl [l1, l2]` is `'\n' :: l1 ++ '\n' :: l2`. -/
def joinNl (ls : List (List Char)) : List Char :=
  ls.flatMap (fun l => '\n' :: l)

/-- Modelled from the spec: the role markers on which the flattened prompt is
re-split.  A line opens a new turn exactly when it starts with one of the
markers "user: ", "assistant: " or "system: "; the marker is stripped from
the recovered content. -/
def markerOf (line : List Char) : Option (String × List Char) :=
  if "user: ".data.isPrefixOf line then
    some ("user", line.drop "user: ".data.length)
  else if "assistant: ".data.isPrefixOf line then
    some ("assistant", line.drop "assistant: ".data.length)
  else if "system: ".data.isPrefixOf line then
    some ("system", line.drop "system: ".data.length)
  else none

/-- Modelled from the spec: fold one line of the flattened prompt into the
turns recovered so far (most recent first).  A marker line opens a new turn;
any other line continues the current turn's content, re-joined with the
newline the split removed. -/
def addLineRev (acc : List (String × List Char)) (line : List Char) :
    List (String × List Char) :=
  match markerOf line with
  | some rc => rc :: acc
  | none =>
    match acc with
    | [] => [("", line)]
    | t :: ts => (t.1, t.2 ++ '\n' :: line) :: ts

/-- Modelled from the spec: re-split a flattened prompt on the role markers,
recovering the sequence of turns it serializes. -/
def resplit (p : String) : List ChatTurn :=
  (((splitNl p.data).foldl addLineRev []).reverse).map
    (fun rc => ⟨rc.1, String.mk rc.2⟩)

/-- An HTTP response: either a success status with a typed JSON body, or an
error status with a JSON body `{ error: <message> }`. -/
inductive Response (β : Type) where
  | ok (status : Nat) (body : β)
  | err (status : Nat) (error : String)
deriving Repr, DecidableEq

/-- The HTTP status code of a response. -/
def Response.status {β : Type} : Response β → Nat
  | .ok s _ => s
  | .err s _ => s

/-- The success body of POST /api/chat: `res.json({ content: text, role: "assistant" })`
(src/index.js:161-164). -/
structure ChatBody where
  content : String
  role : String
deriving Repr, DecidableEq

/-- The message of the TypeError raised by `messages.filter` when the request
body carries no `messages` array (src/index.js:116); it is caught at
src/index.js:165 and surfaced as `error.message`. -/
def filterTypeErrorMessage : String :=
  "Cannot read properties of undefined (reading \x27filter\x27)"

/-- Model of the POST /api/chat handler (src/index.js:96-171).
`apiKeyConfigured` is the truthiness of `process.env.GEMINI_API_KEY`,
`genAIReady` whether the `genAI` client was initialized, `messages?` the
request body's `messages` field (`none` when absent, so that
`messages.filter` throws and the catch at line 165 answers 500), and
`modelCall` the outcome of `model.generateContent` on the assembled
prompt (`Except.error e` when the upstream call fails with message `e`). -/
def chatHandler (apiKeyConfigured genAIReady : Bool) (messages? : Option (List ChatTurn))
    (modelCall : String → Except String String) : Response ChatBody :=
  if !apiKeyConfigured then
    .err 500 "Gemini API key is missing. Please set the GEMINI_API_KEY environment variable."
  else if !genAIReady then
    .err 500 "Gemini client is not initialized. Please check your API key."
  else
    match messages? with
    | none => .err 500 filterTypeErrorMessage
    | some messages =>
      match modelCall (prompt messages) with
      | .ok text => .ok 200 ⟨text, "assistant"⟩
      | .error e => .err 500 e

/-- A document of the `projects` collection as stored in MongoDB:
the application fields written by the create handler (src/index.js:213-221)
plus the store's internal record identifier (MongoDB's `_id`), which the
read handler never exposes. -/
structure StoredProject where
  internalId : Nat
  id : String
  name : String
  schema : String
  schemaType : String
  conversation : List ChatTurn
  createdAt : String
  updatedAt : String
deriving Repr, DecidableEq

/-- The `projects` collection, in insertion order. -/
abbrev Store := List StoredProject

/-- The response body of GET /api/projects/:id (src/index.js:187-195): exactly
the seven application fields, without the store's internal record identifier. -/
structure ProjectView where
  id : String
  name : String
  schema : String
  schemaType : String
  conversation : List ChatTurn
  createdAt : String
  updatedAt : String
deriving Repr, DecidableEq

/-- The view of a stored document exposed by the read handler
(src/index.js:187-195). -/
def toView (p : StoredProject) : ProjectView :=
  ⟨p.id, p.name, p.schema, p.schemaType, p.conversation, p.createdAt, p.updatedAt⟩

/-- `db.collection("projects").findOne({ id })` (src/index.js:181): the first
document whose `id` field matches. -/
def findOne (store : Store) (pid : String) : Option StoredProject :=
  store.find? (fun p => p.id == pid)

/-- Model of GET /api/projects/:id (src/index.js:174-200).  `db` is the
process-wide connection handle (`none` before `connectToMongoDB` succeeds). -/
def getProject (db : Option Store) (pid : String) : Response ProjectView :=
  match db with
  | none => .err 500 "Database connection not available"
  | some store =>
    match findOne store pid with
    | none => .err 404 "Project not found"
    | some p => .ok 200 (toView p)

/-- Model of POST /api/projects (src/index.js:203-230).  `freshId` is the id
minted by `nanoid()` and `now` the timestamp `new Date()`; `insertOne` appends
the document, or fails on the unique index on `id` (src/index.js:50) when the
minted id already exists, which the catch turns into a 500.  Returns the
response together with the store state after the call. -/
def createProject (db : Option Store) (name schema schemaType : String)
    (conversation : List ChatTurn) (freshId now : String) :
    Response String × Option Store :=
  match db with
  | none => (.err 500 "Database connection not available", none)
  | some store =>
    let project : StoredProject :=
      ⟨store.length, freshId, name, schema, schemaType, conversation, now, now⟩
    if store.any (fun p => p.id == freshId) then
      (.err 500 "Failed to create project", some store)
    else
      (.ok 201 freshId, some (store ++ [project]))

/-- `db.collection("projects").updateOne({ id }, { $set: { name, schema, updatedAt: now } })`
(src/index.js:243-252): rewrites the first document whose `id` matches and
reports the matched count. -/
def updateOne (store : Store) (pid name schema now : String) : Store × Nat :=
  match store with
  | [] => ([], 0)
  | p :: rest =>
    if p.id == pid then
      ({ p with name := name, schema := schema, updatedAt := now } :: rest, 1)
    else
      let r := updateOne rest pid name schema now
      (p :: r.1, r.2)

/-- Model of PUT /api/projects/:id (src/index.js:233-263): 404 when
`matchedCount === 0`, otherwise `{ success: true }`.  Returns the response
together with the store state after the call. -/
def updateProject (db : Option Store) (pid name schema now : String) :
    Response Bool × Option Store :=
  match db with
  | none => (.err 500 "Database connection not available", none)
  | some store =>
    let r := updateOne store pid name schema now
    if r.2 == 0 then (.err 404 "Project not found", some r.1)
    else (.ok 200 true, some r.1)

/-- The body of GET /api/status (src/index.js:74-92). -/
structure StatusBody where
  server : Bool
  gemini : Bool
  database : Bool
deriving Repr, DecidableEq

/-- Model of GET /api/status (src/index.js:74-92): `server` is always true,
`gemini` is `!!process.env.GEMINI_API_KEY`, and `database` is true exactly
when a connection handle exists and the live `ping` command succeeds with a
truthy result (`pingOk`); a ping failure is caught and leaves it false. -/
def apiStatus (apiKeyConfigured : Bool) (db : Option Store) (pingOk : Bool) :
    Response StatusBody :=
  .ok 200
    { server := true
      gemini := apiKeyConfigured
      database := match db with
        | none => false
        | some _ => pingOk }

/-! Helper lemmas about `splitNl`, `joinNl` and the role markers. -/

theorem splitNl_nil_eq : splitNl [] = [[]] := rfl

theorem splitNl_cons_nl (cs : List Char) : splitNl ('\n' :: cs) = [] :: splitNl cs := by
  simp [splitNl]

theorem splitNl_ne_nil (xs : List Char) : splitNl xs ≠ [] := by
  match xs with
  | [] => simp [splitNl]
  | c :: cs =>
    simp only [splitNl]
    split
    · simp
    · split <;> simp

theorem splitNl_eq_cons (cs : List Char) : ∃ h0 t0, splitNl cs = h0 :: t0 := by
  cases hsp : splitNl cs with
  | nil => exact absurd hsp (splitNl_ne_nil cs)
  | cons a b => exact ⟨a, b, rfl⟩

theorem splitNl_cons_ne (c : Char) (cs : List Char) (hc : c ≠ '\n')
    (h0 : List Char) (t0 : List (List Char)) (hs : splitNl cs = h0 :: t0) :
    splitNl (c :: cs) = (c :: h0) :: t0 := by
  simp [splitNl, hc, hs]

theorem splitNl_reconstruct (xs : List Char) :
    ∀ h t, splitNl xs = h :: t → h ++ joinNl t = xs := by
  induction xs with
  | nil =>
    intro h t hs
    rw [splitNl_nil_eq] at hs
    injection hs with h1 h2
    subst h1
    subst h2
    simp [joinNl]
  | cons c cs ih =>
    intro h t hs
    by_cases hc : c = '\n'
    · subst hc
      rw [splitNl_cons_nl] at hs
      injection hs with h1 h2
      subst h1
      subst h2
      obtain ⟨h0, t0, ht0⟩ := splitNl_eq_cons cs
      have ihh := ih h0 t0 ht0
      simp only [joinNl] at ihh ⊢
      rw [ht0]
      simp only [List.nil_append, List.flatMap_cons, List.cons_append]
      rw [ihh]
    · obtain ⟨h0, t0, ht0⟩ := splitNl_eq_cons cs
      rw [splitNl_cons_ne c cs hc h0 t0 ht0] at hs
      injection hs with h1 h2
      subst h1
      subst h2
      have ihh := ih h0 t0 ht0
      rw [List.cons_append, ihh]

theorem splitNl_append (xs ys : List Char) :
    splitNl (xs ++ '\n' :: ys) = splitNl xs ++ splitNl ys := by
  induction xs with
  | nil => simp [splitNl_nil_eq, splitNl_cons_nl]
  | cons c cs ih =>
    by_cases hc : c = '\n'
    · subst hc
      rw [List.cons_append, splitNl_cons_nl, splitNl_cons_nl, ih, List.cons_append]
    · obtain ⟨h0, t0, ht0⟩ := splitNl_eq_cons cs
      have h1 : splitNl (cs ++ '\n' :: ys) = h0 :: (t0 ++ splitNl ys) := by
        rw [ih, ht0, List.cons_append]
      rw [List.cons_append, splitNl_cons_ne c _ hc _ _ h1,
        splitNl_cons_ne c cs hc h0 t0 ht0, List.cons_append]

theorem splitNl_nofree_append (xs ys : List Char) :
    ∀ h0 t0, (∀ c ∈ xs, c ≠ '\n') → splitNl ys = h0 :: t0 →
      splitNl (xs ++ ys) = (xs ++ h0) :: t0 := by
  induction xs with
  | nil => intro h0 t0 _ hys; simpa using hys
  | cons c cs ih =>
    intro h0 t0 h hys
    have hc : c ≠ '\n' := h c (List.mem_cons_self c cs)
    have h1 := ih h0 t0 (fun x hx => h x (List.mem_cons_of_mem c hx)) hys
    rw [List.cons_append, splitNl_cons_ne c _ hc _ _ h1, List.cons_append]

theorem isPrefixOf_self_append (p r : List Char) : p.isPrefixOf (p ++ r) = true := by
  induction p with
  | nil => simp
  | cons a as ih => rw [List.cons_append, List.isPrefixOf_cons₂, ih]; simp

theorem isPrefixOf_false_of_head_ne (a b : Char) (p q : List Char)
    (h : (a == b) = false) : (a :: p).isPrefixOf (b :: q) = false := by
  rw [List.isPrefixOf_cons₂, h, Bool.false_and]

theorem markerOf_user (c : List Char) :
    markerOf ("user: ".data ++ c) = some ("user", c) := by
  unfold markerOf
  rw [isPrefixOf_self_append]
  simp [List.drop_left]

theorem markerOf_assistant (c : List Char) :
    markerOf ("assistant: ".data ++ c) = some ("assistant", c) := by
  unfold markerOf
  have h1 : "user: ".data.isPrefixOf ("assistant: ".data ++ c) = false := by
    have e1 : "user: ".data = 'u' :: "ser: ".data := rfl
    have e2 : "assistant: ".data ++ c = 'a' :: ("ssistant: ".data ++ c) := rfl
    rw [e1, e2]
    exact isPrefixOf_false_of_head_ne _ _ _ _ (by decide)
  rw [h1, isPrefixOf_self_append]
  simp [List.drop_left]

theorem markerOf_system (c : List Char) :
    markerOf ("system: ".data ++ c) = some ("system", c) := by
  unfold markerOf
  have h1 : "user: ".data.isPrefixOf ("system: ".data ++ c) = false := by
    have e1 : "user: ".data = 'u' :: "ser: ".data := rfl
    have e2 : "system: ".data ++ c = 's' :: ("ystem: ".data ++ c) := rfl
    rw [e1, e2]
    exact isPrefixOf_false_of_head_ne _ _ _ _ (by decide)
  have h2 : "assistant: ".data.isPrefixOf ("system: ".data ++ c) = false := by
    have e1 : "assistant: ".data = 'a' :: "ssistant: ".data := rfl
    have e2 : "system: ".data ++ c = 's' :: ("ystem: ".data ++ c) := rfl
    rw [e1, e2]
    exact isPrefixOf_false_of_head_ne _ _ _ _ (by decide)
  rw [h1, h2, isPrefixOf_self_append]
  simp [List.drop_left]

theorem foldl_addLineRev_nomarker (ls : List (List Char)) :
    ∀ (r : String) (c : List Char) (ts : List (String × List Char)),
      (∀ l ∈ ls, markerOf l = none) →
      ls.foldl addLineRev ((r, c) :: ts) = (r, c ++ joinNl ls) :: ts := by
  induction ls with
  | nil => intro r c ts _; simp [joinNl]
  | cons l ls ih =>
    intro r c ts h
    have hl : markerOf l = none := h l (List.mem_cons_self l ls)
    have step : addLineRev ((r, c) :: ts) l = (r, c ++ '\n' :: l) :: ts := by
      simp [addLineRev, hl]
    rw [List.foldl_cons, step, ih r _ ts (fun x hx => h x (List.mem_cons_of_mem l hx))]
    simp [joinNl, List.flatMap_cons, List.append_assoc]

theorem foldl_addLineRev_piece_aux (role content : String)
    (acc : List (String × List Char))
    (hnl : ∀ c ∈ (role ++ ": ").data, c ≠ '\n')
    (hmark : ∀ c : List Char, markerOf ((role ++ ": ").data ++ c) = some (role, c))
    (hcont : ∀ l ∈ (splitNl content.data).tail, markerOf l = none) :
    (splitNl ((role ++ ": " ++ content).data)).foldl addLineRev acc
      = (role, content.data) :: acc := by
  obtain ⟨ch, ct, hct⟩ := splitNl_eq_cons content.data
  have hrec := splitNl_reconstruct content.data ch ct hct
  have hctail : ∀ l ∈ ct, markerOf l = none := by
    simpa [hct] using hcont
  have hdata : (role ++ ": " ++ content).data = (role ++ ": ").data ++ content.data := by
    rw [String.data_append]
  rw [hdata, splitNl_nofree_append _ content.data ch ct hnl hct, List.foldl_cons]
  have step : addLineRev acc ((role ++ ": ").data ++ ch) = (role, ch) :: acc := by
    unfold addLineRev
    rw [hmark ch]
  rw [step, foldl_addLineRev_nomarker ct role ch acc hctail, hrec]

theorem foldl_addLineRev_piece (role content : String)
    (acc : List (String × List Char))
    (hrole : role = "user" ∨ role = "assistant" ∨ role = "system")
    (hcont : ∀ l ∈ (splitNl content.data).tail, markerOf l = none) :
    (splitNl ((role ++ ": " ++ content).data)).foldl addLineRev acc
      = (role, content.data) :: acc := by
  rcases hrole with rfl | rfl | rfl
  · refine foldl_addLineRev_piece_aux _ _ _ (by decide) (fun c => ?_) hcont
    have e : ("user" ++ ": ").data = "user: ".data := rfl
    rw [e]
    exact markerOf_user c
  · refine foldl_addLineRev_piece_aux _ _ _ (by decide) (fun c => ?_) hcont
    have e : ("assistant" ++ ": ").data = "assistant: ".data := rfl
    rw [e]
    exact markerOf_assistant c
  · refine foldl_addLineRev_piece_aux _ _ _ (by decide) (fun c => ?_) hcont
    have e : ("system" ++ ": ").data = "system: ".data := rfl
    rw [e]
    exact markerOf_system c

theorem foldl_addLineRev_chain (ms : List ChatTurn) :
    ∀ acc : List (String × List Char),
      (∀ m ∈ ms, m.role = "user" ∨ m.role = "assistant" ∨ m.role = "system") →
      (∀ m ∈ ms, ∀ l ∈ (splitNl m.content.data).tail, markerOf l = none) →
      (ms.flatMap (fun m => splitNl ((m.role ++ ": " ++ m.content).data))).foldl
          addLineRev acc
        = (ms.map (fun m => (m.role, m.content.data))).reverse ++ acc := by
  induction ms with
  | nil => intro acc _ _; simp
  | cons m ms ih =>
    intro acc hroles hcont
    rw [List.flatMap_cons, List.foldl_append,
      foldl_addLineRev_piece m.role m.content acc (hroles m (List.mem_cons_self m ms))
        (hcont m (List.mem_cons_self m ms)),
      ih _ (fun x hx => hroles x (List.mem_cons_of_mem m hx))
        (fun x hx => hcont x (List.mem_cons_of_mem m hx))]
    simp

theorem splitNl_data_chain (ps : List (List Char)) :
    ∀ p0 : List Char,
      splitNl (p0 ++ ps.flatMap (fun x => '\n' :: x))
        = splitNl p0 ++ ps.flatMap splitNl := by
  induction ps with
  | nil => intro p0; simp
  | cons x ps ih =>
    intro p0
    rw [List.flatMap_cons, List.cons_append, splitNl_append, ih x,
      List.flatMap_cons]

theorem intercalate_go_data (as : List String) :
    ∀ acc s : String,
      (String.intercalate.go acc s as).data
        = acc.data ++ as.flatMap (fun x => s.data ++ x.data) := by
  induction as with
  | nil => intro acc s; simp [String.intercalate.go]
  | cons a as ih =>
    intro acc s
    rw [String.intercalate.go, ih, String.data_append, String.data_append,
      List.flatMap_cons]
    simp

theorem intercalate_data (s a : String) (as : List String) :
    (String.intercalate s (a :: as)).data
      = a.data ++ as.flatMap (fun x => s.data ++ x.data) := by
  rw [String.intercalate, intercalate_go_data]

set_option maxRecDepth 8000 in
theorem clarifyPrompt_tail_nomarker :
    ∀ l ∈ (splitNl clarifyPrompt.data).tail, markerOf l = none := by decide

set_option maxRecDepth 8000 in
theorem generatePrompt_tail_nomarker :
    ∀ l ∈ (splitNl generatePrompt.data).tail, markerOf l = none := by decide

theorem systemPrompt_tail_nomarker (messages : List ChatTurn) :
    ∀ l ∈ (splitNl (systemPrompt messages).data).tail, markerOf l = none := by
  unfold systemPrompt
  split
  · exact generatePrompt_tail_nomarker
  · exact clarifyPrompt_tail_nomarker

theorem string_mk_data (s : String) : String.mk s.data = s := rfl

theorem prompt_data (messages : List ChatTurn) :
    (prompt messages).data
      = ("system" ++ ": " ++ systemPrompt messages).data
        ++ messages.flatMap (fun m => '\n' :: (m.role ++ ": " ++ m.content).data) := by
  unfold prompt combinedMessages
  rw [List.map_cons, intercalate_data]
  congr 1
  rw [List.flatMap_map]
  congr 1

theorem resplit_prompt_eq (messages : List ChatTurn)
    (hroles : ∀ m ∈ messages,
      m.role = "user" ∨ m.role = "assistant" ∨ m.role = "system")
    (hcont : ∀ m ∈ messages,
      ∀ l ∈ (splitNl m.content.data).tail, markerOf l = none) :
    resplit (prompt messages) = combinedMessages messages := by
  unfold resplit
  rw [prompt_data]
  have h1 : messages.flatMap (fun m => '\n' :: (m.role ++ ": " ++ m.content).data)
      = (messages.map (fun m => (m.role ++ ": " ++ m.content).data)).flatMap
          (fun x => '\n' :: x) := by
    rw [List.flatMap_map]
  rw [h1, splitNl_data_chain, List.flatMap_map, List.foldl_append,
    foldl_addLineRev_piece "system" (systemPrompt messages) []
      (Or.inr (Or.inr rfl)) (systemPrompt_tail_nomarker messages),
    foldl_addLineRev_chain messages _ hroles hcont,
    List.reverse_append, List.reverse_reverse]
  simp only [List.reverse_cons, List.reverse_nil, List.nil_append,
    List.singleton_append, List.map_cons, List.map_map]
  have h2 : ((fun rc : String × List Char => (⟨rc.1, String.mk rc.2⟩ : ChatTurn))
      ∘ fun m : ChatTurn => (m.role, m.content.data)) = id :=
    funext fun m => rfl
  rw [h2, List.map_id]
  rfl

theorem updateOne_found (store : Store) (pid name schema now : String) :
    ∀ d, List.find? (fun p => p.id == pid) store = some d →
      (updateOne store pid name schema now).2 = 1 ∧
      List.find? (fun p => p.id == pid) (updateOne store pid name schema now).1
        = some { d with name := name, schema := schema, updatedAt := now } := by
  induction store with
  | nil => intro d hd; simp at hd
  | cons p rest ih =>
    intro d hd
    by_cases hp : (p.id == pid) = true
    · simp only [List.find?_cons, hp] at hd
      injection hd with hd
      subst hd
      simp only [updateOne, if_pos hp]
      refine ⟨trivial, ?_⟩
      have hid : ({ p with name := name, schema := schema, updatedAt := now
        : StoredProject }).id = p.id := rfl
      simp only [List.find?_cons, hid, hp]
    · have hp0 : (p.id == pid) = false := by
        cases hb : (p.id == pid) with
        | false => rfl
        | true => exact absurd hb hp
      simp only [List.find?_cons, hp0] at hd
      obtain ⟨h1, h2⟩ := ih d hd
      simp only [updateOne, if_neg hp]
      exact ⟨h1, by simp only [List.find?_cons, hp0]; exact h2⟩

theorem updateOne_missed (store : Store) (pid name schema now : String)
    (h : ∀ p ∈ store, p.id ≠ pid) :
    updateOne store pid name schema now = (store, 0) := by
  induction store with
  | nil => rfl
  | cons p rest ih =>
    have hp : (p.id == pid) ≠ true := by
      intro hc
      exact h p (List.mem_cons_self p rest) (eq_of_beq hc)
    have ihh := ih (fun x hx => h x (List.mem_cons_of_mem p hx))
    simp only [updateOne, if_neg hp, ihh]

/-! The claims. -/

/-- C1: for every turn sequence submitted to the chat operation, the policy
mode is GENERATE if and only if the count of turns with role "user" is at
least 3, and CLARIFY otherwise; the empty sequence yields CLARIFY, and
exactly 3 user turns is the first count that yields GENERATE. -/
theorem mode_generate_iff (messages : List ChatTurn) :
    (mode messages = .GENERATE
      ↔ 3 ≤ (messages.filter (fun m => m.role == "user")).length) ∧
    (mode messages = .CLARIFY
      ↔ (messages.filter (fun m => m.role == "user")).length < 3) ∧
    mode [] = .CLARIFY := by
  refine ⟨?_, ?_, rfl⟩ <;>
    · unfold mode shouldGenerateSchema userMessages
      by_cases h : 3 ≤ (messages.filter (fun m => m.role == "user")).length <;>
        simp [h] <;> omega

/-- C3: for every successful chat call, the response is 200 with body exactly
{ content: the model's generated text verbatim, role: "assistant" }; the
model output is returned without any parsing, validation, or reformatting. -/
theorem chat_success_verbatim (messages : List ChatTurn)
    (modelCall : String → Except String String) (text : String)
    (h : modelCall (prompt messages) = .ok text) :
    chatHandler true true (some messages) modelCall = .ok 200 ⟨text, "assistant"⟩ := by
  simp [chatHandler, h]

theorem chat_success_verbatim_witness :
    chatHandler true true (some [⟨"user", "I need a blog"⟩])
        (fun _ => Except.ok "What is the blog about?")
      = .ok 200 ⟨"What is the blog about?", "assistant"⟩ :=
  chat_success_verbatim [⟨"user", "I need a blog"⟩] _ "What is the blog about?" rfl

/-- C7: when no store connection is established, every project-store
operation fails immediately with HTTP 500 and an error message, and the
store state is unchanged. -/
theorem store_unavailable (pid name schema schemaType freshId now : String)
    (conversation : List ChatTurn) :
    getProject none pid = .err 500 "Database connection not available" ∧
    createProject none name schema schemaType conversation freshId now
      = (.err 500 "Database connection not available", none) ∧
    updateProject none pid name schema now
      = (.err 500 "Database connection not available", none) :=
  ⟨rfl, rfl, rfl⟩

/-- C8 counterexample: with the API key configured but the Gemini client not
initialized (src/index.js:64-71 leaves `genAI` undefined when the
constructor throws), the status body reports gemini = true even though the
model client is not live, as the chat endpoint in the very same
configuration shows by failing with client-not-initialized: the flag
reflects key configuration (src/index.js:77), not live connectivity. -/
theorem status_gemini_cex :
    apiStatus true none false = .ok 200 ⟨true, true, false⟩ ∧
    chatHandler true false (some []) (fun _ => Except.ok "hi")
      = .err 500 "Gemini client is not initialized. Please check your API key." :=
  ⟨rfl, rfl⟩

/-- C8 (amended): the status operation returns 200 with { server, gemini,
database } where server is always true, gemini reflects the presence of the
GEMINI_API_KEY configuration (not live client state), and database is true
exactly when a store connection exists and the live ping succeeds. -/
theorem apiStatus_spec (apiKeyConfigured : Bool) (db : Option Store) (pingOk : Bool) :
    (apiStatus apiKeyConfigured db pingOk).status = 200 ∧
    apiStatus apiKeyConfigured db pingOk
      = .ok 200 ⟨true, apiKeyConfigured, db.isSome && pingOk⟩ := by
  cases db <;> cases pingOk <;> exact ⟨rfl, rfl⟩

/-- C9: the conversation policy decision and the prompt assembly are
deterministic: two chat calls given identical turn sequences choose the same
mode and assemble the same prompt text; `mode` and `prompt` take no input
besides the turn sequence, so no hidden state, randomness, or prior call can
influence them. -/
theorem chat_deterministic (ms1 ms2 : List ChatTurn) (h : ms1 = ms2) :
    mode ms1 = mode ms2 ∧ prompt ms1 = prompt ms2 := by
  subst h
  exact ⟨rfl, rfl⟩

theorem chat_deterministic_witness :
    mode [⟨"user", "I need a blog"⟩] = mode [⟨"user", "I need a blog"⟩] ∧
    prompt [⟨"user", "I need a blog"⟩] = prompt [⟨"user", "I need a blog"⟩] :=
  chat_deterministic [⟨"user", "I need a blog"⟩] [⟨"user", "I need a blog"⟩] rfl

/-- C10: a chat request whose body lacks a messages array is answered with
HTTP 500 and a JSON error message — the TypeError raised when counting user
turns is caught by the handler's generic error branch; the process does not
crash and the status is not 400. -/
theorem chat_missing_messages (modelCall : String → Except String String) :
    chatHandler true true none modelCall = .err 500 filterTypeErrorMessage ∧
    (chatHandler true true none modelCall).status = 500 ∧
    (chatHandler true true none modelCall).status ≠ 400 :=
  ⟨rfl, rfl, by show (500 : Nat) ≠ 400; omega⟩

set_option maxRecDepth 40000 in
/-- C2 counterexample: for the single-turn sequence whose content embeds a
newline followed by the role marker "user: ", re-splitting the flattened
prompt on the role markers does not recover the original sequence — it
yields two user turns instead of one. -/
theorem prompt_roundtrip_cex :
    (resplit (prompt [⟨"user", "a\nuser: b"⟩])).tail ≠ [⟨"user", "a\nuser: b"⟩] ∧
    (resplit (prompt [⟨"user", "a\nuser: b"⟩])).tail
      = [⟨"user", "a"⟩, ⟨"user", "b"⟩] := by
  constructor <;> decide

/-- C2 (amended): prompt assembly prepends one synthetic system-role turn and
serializes the combined sequence as "<role>: <content>" per turn joined by
newlines in sequence order with no trailing separator; and for every turn
sequence whose roles are among user, assistant and system and whose contents
contain no line (beyond their first) starting with a role marker,
re-splitting the flattened prompt on the role markers recovers the original
sequence (excluding the prepended system instruction). -/
theorem prompt_roundtrip (messages : List ChatTurn)
    (hroles : ∀ m ∈ messages,
      m.role = "user" ∨ m.role = "assistant" ∨ m.role = "system")
    (hcont : ∀ m ∈ messages,
      ∀ l ∈ (splitNl m.content.data).tail, markerOf l = none) :
    prompt messages
      = String.intercalate "\n"
          ((⟨"system", systemPrompt messages⟩ :: messages).map
            (fun msg => msg.role ++ ": " ++ msg.content)) ∧
    resplit (prompt messages) = combinedMessages messages ∧
    (resplit (prompt messages)).tail = messages := by
  refine ⟨rfl, resplit_prompt_eq messages hroles hcont, ?_⟩
  rw [resplit_prompt_eq messages hroles hcont]
  rfl

theorem prompt_roundtrip_witness :
    (∀ m ∈ ([⟨"user", "I need a blog"⟩,
        ⟨"assistant", "What fields?\nTell me more."⟩,
        ⟨"user", "title and body"⟩] : List ChatTurn),
      m.role = "user" ∨ m.role = "assistant" ∨ m.role = "system") ∧
    (resplit (prompt [⟨"user", "I need a blog"⟩,
        ⟨"assistant", "What fields?\nTell me more."⟩,
        ⟨"user", "title and body"⟩])).tail
      = [⟨"user", "I need a blog"⟩,
        ⟨"assistant", "What fields?\nTell me more."⟩,
        ⟨"user", "title and body"⟩] :=
  ⟨by decide, (prompt_roundtrip _ (by decide) (by decide)).2.2⟩

/-- C4: updating an existing project by id answers 200 { success: true },
replaces only name and schema and refreshes updatedAt; the project's id,
schemaType, conversation and createdAt (and its internal record identifier)
are identical to their pre-update values. -/
theorem update_frame (store : Store) (pid name schema now : String)
    (d : StoredProject) (hd : findOne store pid = some d) :
    ∃ store',
      updateProject (some store) pid name schema now = (.ok 200 true, some store') ∧
      ∃ d', findOne store' pid = some d' ∧
        d'.id = d.id ∧ d'.schemaType = d.schemaType ∧
        d'.conversation = d.conversation ∧ d'.createdAt = d.createdAt ∧
        d'.internalId = d.internalId ∧
        d'.name = name ∧ d'.schema = schema ∧ d'.updatedAt = now := by
  obtain ⟨h1, h2⟩ := updateOne_found store pid name schema now d hd
  refine ⟨(updateOne store pid name schema now).1, ?_, ?_⟩
  · simp [updateProject, h1]
  · exact ⟨{ d with name := name, schema := schema, updatedAt := now },
      h2, rfl, rfl, rfl, rfl, rfl, rfl, rfl, rfl⟩

theorem update_frame_witness :
    (findOne [⟨0, "p1", "Blog", "x", "mongodb", [], "t0", "t0"⟩] "p1"
        = some ⟨0, "p1", "Blog", "x", "mongodb", [], "t0", "t0"⟩) ∧
    (∃ store',
      updateProject (some [⟨0, "p1", "Blog", "x", "mongodb", [], "t0", "t0"⟩])
          "p1" "Blog2" "y" "t1" = (.ok 200 true, some store') ∧
      ∃ d', findOne store' "p1" = some d' ∧
        d'.id = "p1" ∧ d'.schemaType = "mongodb" ∧
        d'.conversation = [] ∧ d'.createdAt = "t0" ∧
        d'.internalId = 0 ∧
        d'.name = "Blog2" ∧ d'.schema = "y" ∧ d'.updatedAt = "t1") :=
  ⟨rfl, update_frame [⟨0, "p1", "Blog", "x", "mongodb", [], "t0", "t0"⟩]
    "p1" "Blog2" "y" "t1" ⟨0, "p1", "Blog", "x", "mongodb", [], "t0", "t0"⟩ rfl⟩

/-- C5: create followed by read with the returned id yields 201 { id } and
then a 200 view whose name, schema, schemaType and conversation equal what
was submitted, with non-empty createdAt equal to updatedAt; the view carries
exactly the seven public fields (the `ProjectView` type has no internal
storage field). -/
theorem create_then_read (store : Store) (name schema schemaType : String)
    (conversation : List ChatTurn) (freshId now : String)
    (hfresh : ∀ p ∈ store, p.id ≠ freshId) (hnow : now ≠ "") :
    (createProject (some store) name schema schemaType conversation freshId now).1
      = .ok 201 freshId ∧
    getProject
        (createProject (some store) name schema schemaType conversation freshId now).2
        freshId
      = .ok 200 ⟨freshId, name, schema, schemaType, conversation, now, now⟩ ∧
    now ≠ "" := by
  have hany : store.any (fun p => p.id == freshId) = false := by
    rw [List.any_eq_false]
    exact fun p hp hb => hfresh p hp (eq_of_beq hb)
  have hstep : createProject (some store) name schema schemaType conversation freshId now
      = (.ok 201 freshId, some (store ++
          [⟨store.length, freshId, name, schema, schemaType, conversation, now, now⟩])) := by
    simp [createProject, hany]
  refine ⟨by rw [hstep], ?_, hnow⟩
  rw [hstep]
  have h1 : store.find? (fun p => p.id == freshId) = none := by
    rw [List.find?_eq_none]
    exact fun p hp hb => hfresh p hp (eq_of_beq hb)
  simp only [getProject, findOne]
  rw [List.find?_append, h1]
  simp [List.find?_cons, toView]

theorem create_then_read_witness :
    (∀ p ∈ ([] : Store), p.id ≠ "abc123") ∧ ("2025-01-01" : String) ≠ "" ∧
    ((createProject (some []) "Blog" "x" "mongodb" [] "abc123" "2025-01-01").1
        = .ok 201 "abc123" ∧
      getProject (createProject (some []) "Blog" "x" "mongodb" [] "abc123" "2025-01-01").2
          "abc123"
        = .ok 200 ⟨"abc123", "Blog", "x", "mongodb", [], "2025-01-01", "2025-01-01"⟩ ∧
      ("2025-01-01" : String) ≠ "") :=
  ⟨by decide, by decide,
    create_then_read [] "Blog" "x" "mongodb" [] "abc123" "2025-01-01"
      (by decide) (by decide)⟩

/-- C6: reading an id for which no project was ever created returns 404, and
updating such an id returns 404 without creating any document — the store is
unchanged by the failed update (no upsert). -/
theorem never_created_not_found (store : Store) (pid name schema now : String)
    (h : ∀ p ∈ store, p.id ≠ pid) :
    getProject (some store) pid = .err 404 "Project not found" ∧
    updateProject (some store) pid name schema now
      = (.err 404 "Project not found", some store) := by
  have h1 : store.find? (fun p => p.id == pid) = none := by
    rw [List.find?_eq_none]
    exact fun p hp hb => h p hp (eq_of_beq hb)
  constructor
  · simp only [getProject, findOne]
    rw [h1]
  · have h2 := updateOne_missed store pid name schema now h
    simp [updateProject, h2]

theorem never_created_not_found_witness :
    (∀ p ∈ ([⟨0, "p1", "Blog", "x", "mongodb", [], "t0", "t0"⟩] : Store),
      p.id ≠ "missing") ∧
    (getProject (some [⟨0, "p1", "Blog", "x", "mongodb", [], "t0", "t0"⟩]) "missing"
        = .err 404 "Project not found" ∧
      updateProject (some [⟨0, "p1", "Blog", "x", "mongodb", [], "t0", "t0"⟩])
          "missing" "n" "s" "t1"
        = (.err 404 "Project not found",
           some [⟨0, "p1", "Blog", "x", "mongodb", [], "t0", "t0"⟩])) :=
  ⟨by decide,
    never_created_not_found [⟨0, "p1", "Blog", "x", "mongodb", [], "t0", "t0"⟩]
      "missing" "n" "s" "t1" (by decide)⟩

end Gigsama
